import Mathlib

/-!
Verification development for the meet-meAI live-transcription pipeline
(`main.py` and `main_temp.py`).

The recognition-worker loop (`process_audio` in both files) is embedded as a
pure step function over the worker's mutable state (`last_partial`,
`last_update_ts`), taking per-iteration input: the wall-clock time of the
iteration (`time.time()`), whether `rec.AcceptWaveform(data)` returned true,
and the parsed JSON of `rec.Result()` / `rec.PartialResult()` (`none` when
`json.loads` raises `JSONDecodeError`).  Times are rationals (the Python
floats); strings are Lean strings.
-/

/-- Models Python `str.strip()`: drop leading and trailing whitespace. -/
def pyStrip (s : String) : String :=
  ⟨((s.data.dropWhile Char.isWhitespace).reverse.dropWhile Char.isWhitespace).reverse⟩

/-- One word of a Vosk final result (`result` array entry): recognized text
with start/end offsets in seconds (`SetWords(True)`). `end` is a keyword, so
the end-offset field is named `stop`. -/
structure Word where
  word : String
  start : ℚ
  stop : ℚ
deriving DecidableEq

/-- Parsed JSON of `rec.Result()` as read by the code:
`result.get("text", "")` and `result.get("result", [])`. -/
structure FinalResult where
  text : String
  result : List Word
deriving DecidableEq

/-- Parsed JSON of `rec.PartialResult()` as read by the code: the field
`pres.get("partial", "")` (named `ptext` here because of a keyword clash). -/
structure PartRes where
  ptext : String
deriving DecidableEq

/-- The recognizer's response to one dequeued audio block:
`accepted r` when `rec.AcceptWaveform(data)` is true and `rec.Result()`
parses to `r` (`none` on `json.JSONDecodeError`); `pending p` when it is
false and `rec.PartialResult()` parses to `p` (`none` on decode error). -/
inductive RecOut where
  | accepted (res : Option FinalResult)
  | pending (res : Option PartRes)
deriving DecidableEq

/-- Input of one iteration of the worker loop: the wall-clock time
(`time.time()`) at that iteration and the recognizer's output for the
dequeued block. -/
structure FrameStep where
  now : ℚ
  out : RecOut
deriving DecidableEq

/-- The worker's loop-local state in `process_audio`:
`last_partial` (named `lastPart`) and `last_update_ts`. -/
structure ThrottleState where
  lastPart : String
  lastUpdateTs : ℚ
deriving DecidableEq

/-- Initial worker state: `last_partial = ""`, `last_update_ts = 0.0`. -/
def ThrottleState.init : ThrottleState := { lastPart := "", lastUpdateTs := 0 }

/-- `PARTIAL_MIN_INTERVAL = 0.08` seconds (same constant in both files). -/
def MIN_INTERVAL : ℚ := 8 / 100

/-- A Qt signal emission in `main.py`: `live t` is `bus.textChanged.emit(t)`,
`segment t` is `bus.finalSegment.emit(t)`. -/
inductive Event where
  | live (text : String)
  | segment (text : String)
deriving DecidableEq

/-- One iteration of `process_audio` in `main.py` (lines 119-143): returns the
new worker state and the signals emitted, in emission order. -/
def stepMain (s : ThrottleState) (i : FrameStep) : ThrottleState × List Event :=
  match i.out with
  | RecOut.accepted none => (s, [])
  | RecOut.accepted (some result) =>
      let final_text := pyStrip result.text
      if final_text ≠ "" then
        ({ s with lastPart := "" },
         [Event.live final_text, Event.segment final_text])
      else (s, [])
  | RecOut.pending none => (s, [])
  | RecOut.pending (some pres) =>
      let t := pyStrip pres.ptext
      if t ≠ "" ∧ t ≠ s.lastPart ∧ i.now - s.lastUpdateTs ≥ MIN_INTERVAL then
        ({ lastPart := t, lastUpdateTs := i.now }, [Event.live (t ++ " …")])
      else (s, [])

/-- Run of the `main.py` worker loop over a list of iterations, accumulating
emitted signals in order. -/
def runMain : ThrottleState → List FrameStep → ThrottleState × List Event
  | s, [] => (s, [])
  | s, i :: rest =>
      let r1 := stepMain s i
      let r2 := runMain r1.1 rest
      (r2.1, r1.2 ++ r2.2)

/-- Texts of the `finalSegment` emissions, in order. -/
def segTexts (evs : List Event) : List String :=
  evs.filterMap fun e =>
    match e with
    | Event.segment t => some t
    | Event.live _ => none

/-- The `Segment` text an iteration produces, if any: `some t` exactly when
the recognizer accepted the waveform, `rec.Result()` parsed, and the stripped
text `t` is non-empty. -/
def finalSeg (i : FrameStep) : Option String :=
  match i.out with
  | RecOut.accepted (some result) =>
      let t := pyStrip result.text
      if t ≠ "" then some t else none
  | _ => none

/-- Zero-pad a number below 100 to two digits, as `strftime` does. -/
def twoDigits (n : ℕ) : String :=
  (if n < 10 then "0" else "") ++ toString n

/-- Models `time.strftime("%H:%M:%S", time.gmtime(start_sec))` in
`main_temp.py` (lines 112-113): seconds are truncated to an integer and
rendered as zero-padded hours-of-day, minutes and seconds. -/
def fmtHMS (sec : ℚ) : String :=
  let t := (Rat.floor sec).toNat
  twoDigits (t / 3600 % 24) ++ ":" ++ twoDigits (t % 3600 / 60) ++ ":" ++
    twoDigits (t % 60)

/-- A dict put on `history_updates` in `main_temp.py` (lines 116-120):
`{"timestamp": ..., "speaker": ..., "text": ...}`. -/
structure HistItem where
  timestamp : String
  speaker : String
  text : String
deriving DecidableEq

/-- One iteration of `process_audio` in `main_temp.py` (lines 96-133):
returns the new worker state, the strings put on `ui_updates`, and the items
put on `history_updates`, each in put order. -/
def stepTemp (s : ThrottleState) (i : FrameStep) :
    ThrottleState × List String × List HistItem :=
  match i.out with
  | RecOut.accepted none => (s, [], [])
  | RecOut.accepted (some result) =>
      let final_text := pyStrip result.text
      if final_text ≠ "" then
        let start_sec : ℚ :=
          match result.result with
          | [] => i.now
          | w :: _ => w.start
        let timestamp := fmtHMS start_sec
        ({ s with lastPart := "" },
         [final_text],
         [{ timestamp := timestamp, speaker := "S1", text := final_text }])
      else (s, [], [])
  | RecOut.pending none => (s, [], [])
  | RecOut.pending (some pres) =>
      let t := pyStrip pres.ptext
      if t ≠ "" ∧ t ≠ s.lastPart ∧ i.now - s.lastUpdateTs ≥ MIN_INTERVAL then
        ({ lastPart := t, lastUpdateTs := i.now }, [t ++ " …"], [])
      else (s, [], [])

/-- Run of the `main_temp.py` worker loop, accumulating both queues' contents
in put order. -/
def runTemp : ThrottleState → List FrameStep → ThrottleState × List String × List HistItem
  | s, [] => (s, [], [])
  | s, i :: rest =>
      let r1 := stepTemp s i
      let r2 := runTemp r1.1 rest
      (r2.1, r1.2.1 ++ r2.2.1, r1.2.2 ++ r2.2.2)

/-- The `history_updates` item an iteration of `main_temp.py` produces, if
any: present exactly when the waveform is accepted, the result parses and the
stripped text is non-empty; its timestamp is the first word's start time,
falling back to the iteration's wall-clock time when the word list is empty. -/
def histSeg (i : FrameStep) : Option HistItem :=
  match i.out with
  | RecOut.accepted (some result) =>
      let t := pyStrip result.text
      if t ≠ "" then
        some { timestamp := fmtHMS (match result.result with
                                    | [] => i.now
                                    | w :: _ => w.start),
               speaker := "S1", text := t }
      else none
  | _ => none

/-- Python `queue.Queue()` as created in both files (default `maxsize=0`,
i.e. infinite): a FIFO list of items.  With `maxsize=0` the queue is never
full, so a blocking `put` appends immediately without waiting and without
discarding anything, and `get` blocks only while the queue is empty. -/
structure PyQueue (α : Type) where
  items : List α
deriving DecidableEq

/-- `queue.Queue()`: starts empty. -/
def PyQueue.empty {α : Type} : PyQueue α := ⟨[]⟩

/-- `q.put(x)` on an unbounded queue: always succeeds, appends at the tail. -/
def PyQueue.put {α : Type} (q : PyQueue α) (x : α) : PyQueue α :=
  ⟨q.items ++ [x]⟩

/-- `q.get()`: `none` means the caller blocks (queue empty); otherwise the
oldest item is removed and returned. -/
def PyQueue.get {α : Type} (q : PyQueue α) : Option (α × PyQueue α) :=
  match q.items with
  | [] => none
  | x :: xs => some (x, ⟨xs⟩)

/-- A sequence of `put` calls, as issued by `audio_callback` for successive
frames. -/
def PyQueue.putAll {α : Type} (q : PyQueue α) (xs : List α) : PyQueue α :=
  xs.foldl PyQueue.put q

/-- An audio frame: the byte buffer `bytes(indata)` put on `q` by
`audio_callback`. -/
def AudioFrame : Type := List ℕ

instance : Inhabited AudioFrame := ⟨([] : List ℕ)⟩

/-- A child widget inserted in the `SpeakerLog` container of `main.py`:
either a 1-px separator or a row `(timestamp, speaker, utterance)`. -/
inductive LogRow where
  | sep
  | row (timestamp speaker text : String)
deriving DecidableEq

/-- The `SpeakerLog` widget state in `main.py`: `_row_count` and the rows
inserted in its vertical layout, in insertion order. -/
structure SpeakerLog where
  row_count : ℕ
  rows : List LogRow
deriving DecidableEq

/-- A freshly constructed `SpeakerLog`: no rows yet. -/
def SpeakerLog.init : SpeakerLog := { row_count := 0, rows := [] }

/-- `SpeakerLog.add_segment` (`main.py` lines 185-225).  `nowStr` is
`self._format_time()`, the wall-clock `QTime.currentTime()` rendered
`HH:mm:ss` at the moment the slot runs; the speaker label is the constant
`"S1"`.  Empty text returns immediately; otherwise a separator is inserted
when rows exist already, then the new row, and `_row_count` is bumped. -/
def addSegment (log : SpeakerLog) (nowStr : String) (text : String) :
    SpeakerLog :=
  if text = "" then log
  else
    let withSep :=
      if log.row_count > 0 then log.rows ++ [LogRow.sep] else log.rows
    { row_count := log.row_count + 1,
      rows := withSep ++ [LogRow.row nowStr "S1" text] }

/-- Delivery of the worker's signal emissions to the `main.py` UI:
`bus.finalSegment` is connected to `SpeakerLog.add_segment`, while
`bus.textChanged` only updates the current-line label, leaving the history
untouched.  `nowStr` is the wall-clock string at delivery time. -/
def deliverSegments (log : SpeakerLog) (nowStr : String)
    (evs : List Event) : SpeakerLog :=
  evs.foldl (fun l e =>
    match e with
    | Event.segment t => addSegment l nowStr t
    | Event.live _ => l) log

/-- Partial-only traffic surrounding the Final in the C1 witness run. -/
def wPre : List FrameStep :=
  [{ now := 0, out := RecOut.pending (some { ptext := "he" }) },
   { now := 1, out := RecOut.pending (some { ptext := "hello" }) }]

/-- More partial traffic after the Final in the C1 witness run. -/
def wPost : List FrameStep :=
  [{ now := 3, out := RecOut.pending (some { ptext := "it" }) }]

/-- The Final outcome of the C1 witness run. -/
def wFin : FrameStep :=
  { now := 2,
    out := RecOut.accepted (some { text := " hello world ", result := [] }) }

/-- The second Final of the C5 witness run. -/
def wFin2 : FrameStep :=
  { now := 4, out := RecOut.accepted (some { text := "bye", result := [] }) }

/-- The Final result used by the C3 witness: one timed word. -/
def wTimed : FinalResult :=
  { text := " go ", result := [{ word := "go", start := 7, stop := 8 }] }

/-- A Final result with full word timings, first word starting at 0.0 s. -/
def wDoor : FinalResult :=
  { text := "open the door",
    result := [{ word := "open", start := 0, stop := 1 },
               { word := "the", start := 1, stop := 2 },
               { word := "door", start := 2, stop := 3 }] }

theorem segTexts_append (a b : List Event) :
    segTexts (a ++ b) = segTexts a ++ segTexts b :=
  List.filterMap_append a b _

theorem segTexts_stepMain (s : ThrottleState) (i : FrameStep) :
    segTexts (stepMain s i).2 = (finalSeg i).toList := by
  rcases i with ⟨now, out⟩
  rcases out with res | res <;> rcases res with _ | r <;>
    simp only [stepMain, finalSeg, segTexts, List.filterMap] <;> try rfl
  · split <;> rfl
  · split <;> rfl

theorem segTexts_runMain (s : ThrottleState) (l : List FrameStep) :
    segTexts (runMain s l).2 = l.filterMap finalSeg := by
  induction l generalizing s with
  | nil => rfl
  | cons i rest ih =>
      simp only [runMain, segTexts_append, segTexts_stepMain, ih,
        List.filterMap_cons]
      cases finalSeg i <;> simp

theorem hist_stepTemp (s : ThrottleState) (i : FrameStep) :
    (stepTemp s i).2.2 = (histSeg i).toList := by
  rcases i with ⟨now, out⟩
  rcases out with res | res <;> rcases res with _ | r <;>
    simp only [stepTemp, histSeg] <;> try rfl
  · split <;> rfl
  · split <;> rfl

theorem hist_runTemp (s : ThrottleState) (l : List FrameStep) :
    (runTemp s l).2.2 = l.filterMap histSeg := by
  induction l generalizing s with
  | nil => rfl
  | cons i rest ih =>
      simp only [runTemp, hist_stepTemp, ih, List.filterMap_cons]
      cases histSeg i <;> simp

theorem histSeg_eq_none (i : FrameStep) (h : finalSeg i = none) :
    histSeg i = none := by
  rcases i with ⟨now, out⟩
  rcases out with res | res <;> rcases res with _ | r <;>
    simp only [finalSeg, histSeg] at h ⊢ <;> try rfl
  split at h
  · exact absurd h (by simp)
  · simp_all [histSeg]

theorem histSeg_text (i : FrameStep) (t : String) (h : finalSeg i = some t) :
    ∃ item : HistItem, histSeg i = some item ∧ item.text = t := by
  rcases i with ⟨now, out⟩
  rcases out with res | res
  · rcases res with _ | r
    · exact absurd h (by simp [finalSeg])
    · simp only [finalSeg, histSeg] at h ⊢
      by_cases hne : pyStrip r.text = ""
      · rw [if_neg (not_not.mpr hne)] at h
        exact absurd h (by simp)
      · rw [if_pos hne] at h
        rw [if_pos hne]
        exact ⟨_, rfl, by simpa using h⟩
  · rcases res with _ | p <;> exact absurd h (by simp [finalSeg])

theorem putAll_items {α : Type} (q : PyQueue α) (xs : List α) :
    (PyQueue.putAll q xs).items = q.items ++ xs := by
  induction xs generalizing q with
  | nil => simp [PyQueue.putAll]
  | cons x xs ih =>
      simp [PyQueue.putAll, PyQueue.put] at ih ⊢
      rw [ih]
      simp

/-- C1: a Final outcome whose stripped text is non-empty yields exactly one
Segment on the history channel — the `finalSegment` signal in `main.py` and
the `history_updates` queue in `main_temp.py` — whatever throttle state the
worker is in and however many surrounding iterations (Partial outcomes,
empty Finals, decode errors) produce no Segment of their own; the Final path
is never suppressed by the partial throttle. -/
theorem C1_final_never_dropped (s s2 : ThrottleState)
    (pre post : List FrameStep) (f : FrameStep) (t : String)
    (hpre : ∀ x ∈ pre, finalSeg x = none)
    (hpost : ∀ x ∈ post, finalSeg x = none)
    (hf : finalSeg f = some t) :
    segTexts (runMain s (pre ++ f :: post)).2 = [t] ∧
    ∃ item : HistItem,
      (runTemp s2 (pre ++ f :: post)).2.2 = [item] ∧ item.text = t := by
  constructor
  · rw [segTexts_runMain, List.filterMap_append,
      List.filterMap_cons_some hf,
      List.filterMap_eq_nil_iff.mpr hpre,
      List.filterMap_eq_nil_iff.mpr hpost]
    rfl
  · obtain ⟨item, hi, ht⟩ := histSeg_text f t hf
    refine ⟨item, ?_, ht⟩
    rw [hist_runTemp, List.filterMap_append,
      List.filterMap_cons_some hi,
      List.filterMap_eq_nil_iff.mpr
        (fun x hx => histSeg_eq_none x (hpre x hx)),
      List.filterMap_eq_nil_iff.mpr
        (fun x hx => histSeg_eq_none x (hpost x hx))]
    rfl

theorem C1_witness :
    (∀ x ∈ wPre, finalSeg x = none) ∧ (∀ x ∈ wPost, finalSeg x = none) ∧
    finalSeg wFin = some "hello world" ∧
    (segTexts (runMain ThrottleState.init (wPre ++ wFin :: wPost)).2
        = ["hello world"] ∧
     ∃ item : HistItem,
       (runTemp ThrottleState.init (wPre ++ wFin :: wPost)).2.2 = [item] ∧
         item.text = "hello world") :=
  ⟨by decide, by decide, by decide,
   C1_final_never_dropped ThrottleState.init ThrottleState.init wPre wPost
     wFin "hello world" (by decide) (by decide) (by decide)⟩

/-- C2: on a Partial outcome both workers emit one Live line — the stripped
text plus the ellipsis marker " …" — exactly when all three hold: the
stripped text is non-empty, it differs from `last_partial`, and at least
`PARTIAL_MIN_INTERVAL` (0.08 s) has elapsed since `last_update_ts`;
otherwise nothing at all is emitted.  Consequently a burst of identical
partials inside one interval window produces at most one Live, and only on a
text change. -/
theorem C2_throttle (s : ThrottleState) (now : ℚ) (p : PartRes) :
    (stepMain s { now := now, out := RecOut.pending (some p) }).2
      = (if pyStrip p.ptext ≠ "" ∧ pyStrip p.ptext ≠ s.lastPart ∧
            now - s.lastUpdateTs ≥ MIN_INTERVAL
         then [Event.live (pyStrip p.ptext ++ " …")] else [])
    ∧ (stepTemp s { now := now, out := RecOut.pending (some p) }).2.1
      = (if pyStrip p.ptext ≠ "" ∧ pyStrip p.ptext ≠ s.lastPart ∧
            now - s.lastUpdateTs ≥ MIN_INTERVAL
         then [pyStrip p.ptext ++ " …"] else []) := by
  constructor
  · simp only [stepMain]
    split <;> rfl
  · simp only [stepTemp]
    split <;> rfl

/-- C3 counterexample: in `main.py` the recognizer's word timings never
reach the history.  Feeding a Final with words starting at time 0 and
appending the resulting `finalSegment` event while the UI clock reads
"12:34:56" produces a row stamped "12:34:56", not the first word's start
time (which would render as `fmtHMS 0 = "00:00:00"`). -/
theorem C3_counterexample :
    (deliverSegments SpeakerLog.init "12:34:56"
        (stepMain ThrottleState.init
          { now := 100, out := RecOut.accepted (some wDoor) }).2).rows
      = [LogRow.row "12:34:56" "S1" "open the door"]
    ∧ (wDoor.result.head?.map Word.start = some 0 ∧ "12:34:56" ≠ fmtHMS 0) := by
  constructor
  · decide
  · decide

/-- C3 (amended): only `main_temp.py` stamps Segments with word timing: the
item put on `history_updates` carries the gmtime-rendered start time of the
first recognized word, falling back to the worker's wall-clock time exactly
when the word list is empty.  In `main.py` the `finalSegment` event carries
only the text, and the timestamp shown in the history row is the wall-clock
time at which the UI appends it. -/
theorem C3_timestamp (s : ThrottleState) (now : ℚ) (r : FinalResult)
    (log : SpeakerLog) (nowStr : String)
    (h : pyStrip r.text ≠ "") :
    (stepTemp s { now := now, out := RecOut.accepted (some r) }).2.2
      = [{ timestamp := fmtHMS (match r.result with
                                | [] => now
                                | w :: _ => w.start),
           speaker := "S1", text := pyStrip r.text }]
    ∧ (stepMain s { now := now, out := RecOut.accepted (some r) }).2
      = [Event.live (pyStrip r.text), Event.segment (pyStrip r.text)]
    ∧ (addSegment log nowStr (pyStrip r.text)).rows.getLast?
      = some (LogRow.row nowStr "S1" (pyStrip r.text)) := by
  refine ⟨?_, ?_, ?_⟩
  · simp only [stepTemp]
    rw [if_pos h]
  · simp only [stepMain]
    rw [if_pos h]
  · simp only [addSegment]
    rw [if_neg (fun hc => h (by simpa using hc))]
    exact List.getLast?_concat _

theorem C3_witness :
    pyStrip wTimed.text ≠ "" ∧
    ((stepTemp ThrottleState.init
        { now := 42, out := RecOut.accepted (some wTimed) }).2.2
      = [{ timestamp := fmtHMS (match wTimed.result with
                                | [] => (42 : ℚ)
                                | w :: _ => w.start),
           speaker := "S1", text := pyStrip wTimed.text }]
    ∧ (stepMain ThrottleState.init
        { now := 42, out := RecOut.accepted (some wTimed) }).2
      = [Event.live (pyStrip wTimed.text), Event.segment (pyStrip wTimed.text)]
    ∧ (addSegment SpeakerLog.init "10:00:00" (pyStrip wTimed.text)).rows.getLast?
      = some (LogRow.row "10:00:00" "S1" (pyStrip wTimed.text))) :=
  ⟨by decide,
   C3_timestamp ThrottleState.init 42 wTimed SpeakerLog.init "10:00:00"
     (by decide)⟩

/-- C4 counterexample: a non-empty Final does not restore the whole throttle
state to its initial value.  From `{last_partial := "hi", last_update_ts :=
5}`, processing a Final leaves `last_update_ts = 5`, not the initial 0. -/
theorem C4_counterexample :
    (stepMain { lastPart := "hi", lastUpdateTs := 5 }
        { now := 9,
          out := RecOut.accepted (some { text := "done", result := [] }) }).1
      ≠ ThrottleState.init
    ∧ (stepMain { lastPart := "hi", lastUpdateTs := 5 }
        { now := 9,
          out := RecOut.accepted (some { text := "done", result := [] }) }).1.lastUpdateTs
      = 5 := by
  constructor
  · decide
  · decide

/-- C4 (amended): on a Final with non-empty stripped text, both workers
clear only `last_partial` (back to the empty string); `last_update_ts` keeps
its previous value and is not restored to its initial value. -/
theorem C4_reset (s : ThrottleState) (now : ℚ) (r : FinalResult)
    (h : pyStrip r.text ≠ "") :
    (stepMain s { now := now, out := RecOut.accepted (some r) }).1
      = { lastPart := "", lastUpdateTs := s.lastUpdateTs }
    ∧ (stepTemp s { now := now, out := RecOut.accepted (some r) }).1
      = { lastPart := "", lastUpdateTs := s.lastUpdateTs } := by
  constructor
  · simp only [stepMain]
    rw [if_pos h]
  · simp only [stepTemp]
    rw [if_pos h]

theorem C4_witness :
    pyStrip " done " ≠ "" ∧
    ((stepMain { lastPart := "hi", lastUpdateTs := 5 }
        { now := 9,
          out := RecOut.accepted (some { text := " done ", result := [] }) }).1
      = { lastPart := "",
          lastUpdateTs := ({ lastPart := "hi", lastUpdateTs := 5 } : ThrottleState).lastUpdateTs }
    ∧ (stepTemp { lastPart := "hi", lastUpdateTs := 5 }
        { now := 9,
          out := RecOut.accepted (some { text := " done ", result := [] }) }).1
      = { lastPart := "",
          lastUpdateTs := ({ lastPart := "hi", lastUpdateTs := 5 } : ThrottleState).lastUpdateTs }) :=
  ⟨by decide,
   C4_reset { lastPart := "hi", lastUpdateTs := 5 } 9
     { text := " done ", result := [] } (by decide)⟩

/-- C5: Finals keep their feed order.  For any two Final outcomes `a` fed
before `b`, `a`'s Segment text precedes `b`'s in the `main.py` signal
stream, and `a`'s history item precedes `b`'s on the `main_temp.py`
`history_updates` queue — the single worker loop processes the list strictly
in order. -/
theorem C5_order (s s2 : ThrottleState) (pre mid post : List FrameStep)
    (a b : FrameStep) (ta tb : String)
    (ha : finalSeg a = some ta) (hb : finalSeg b = some tb) :
    (∃ u1 u2 u3, segTexts (runMain s (pre ++ a :: mid ++ b :: post)).2
        = u1 ++ ta :: u2 ++ tb :: u3)
    ∧ (∃ v1 v2 v3, ∃ ia ib : HistItem, ia.text = ta ∧ ib.text = tb ∧
        (runTemp s2 (pre ++ a :: mid ++ b :: post)).2.2
          = v1 ++ ia :: v2 ++ ib :: v3) := by
  constructor
  · refine ⟨pre.filterMap finalSeg, mid.filterMap finalSeg,
      post.filterMap finalSeg, ?_⟩
    rw [segTexts_runMain, List.filterMap_append, List.filterMap_append,
      List.filterMap_cons_some ha, List.filterMap_cons_some hb]
  · obtain ⟨ia, hia, hta⟩ := histSeg_text a ta ha
    obtain ⟨ib, hib, htb⟩ := histSeg_text b tb hb
    refine ⟨pre.filterMap histSeg, mid.filterMap histSeg,
      post.filterMap histSeg, ia, ib, hta, htb, ?_⟩
    rw [hist_runTemp, List.filterMap_append, List.filterMap_append,
      List.filterMap_cons_some hia, List.filterMap_cons_some hib]

theorem C5_witness :
    finalSeg wFin = some "hello world" ∧ finalSeg wFin2 = some "bye" ∧
    ((∃ u1 u2 u3,
        segTexts (runMain ThrottleState.init
            (wPre ++ wFin :: wPost ++ wFin2 :: wPost)).2
          = u1 ++ "hello world" :: u2 ++ "bye" :: u3)
    ∧ (∃ v1 v2 v3, ∃ ia ib : HistItem,
        ia.text = "hello world" ∧ ib.text = "bye" ∧
        (runTemp ThrottleState.init
            (wPre ++ wFin :: wPost ++ wFin2 :: wPost)).2.2
          = v1 ++ ia :: v2 ++ ib :: v3)) :=
  ⟨by decide, by decide,
   C5_order ThrottleState.init ThrottleState.init wPre wPost wPost wFin wFin2
     "hello world" "bye" (by decide) (by decide)⟩

/-- C6: an outcome whose stripped text is empty emits nothing: in `main.py`
neither `textChanged` nor `finalSegment` fires, and in `main_temp.py`
neither `ui_updates` nor `history_updates` receives anything, for Finals and
Partials alike (the state is also untouched). -/
theorem C6_empty_text (s : ThrottleState) (now : ℚ)
    (r : FinalResult) (p : PartRes)
    (hr : pyStrip r.text = "") (hp : pyStrip p.ptext = "") :
    stepMain s { now := now, out := RecOut.accepted (some r) } = (s, [])
    ∧ stepMain s { now := now, out := RecOut.pending (some p) } = (s, [])
    ∧ stepTemp s { now := now, out := RecOut.accepted (some r) } = (s, [], [])
    ∧ stepTemp s { now := now, out := RecOut.pending (some p) } = (s, [], []) := by
  refine ⟨?_, ?_, ?_, ?_⟩
  · simp only [stepMain]
    rw [if_neg (fun hc => hc hr)]
  · simp only [stepMain]
    rw [if_neg (fun hc => hc.1 hp)]
  · simp only [stepTemp]
    rw [if_neg (fun hc => hc hr)]
  · simp only [stepTemp]
    rw [if_neg (fun hc => hc.1 hp)]

theorem C6_witness :
    pyStrip "   " = "" ∧ pyStrip "" = "" ∧
    (stepMain ThrottleState.init
        { now := 3, out := RecOut.accepted (some { text := "   ", result := [] }) }
      = (ThrottleState.init, [])
    ∧ stepMain ThrottleState.init
        { now := 3, out := RecOut.pending (some { ptext := "" }) }
      = (ThrottleState.init, [])
    ∧ stepTemp ThrottleState.init
        { now := 3, out := RecOut.accepted (some { text := "   ", result := [] }) }
      = (ThrottleState.init, [], [])
    ∧ stepTemp ThrottleState.init
        { now := 3, out := RecOut.pending (some { ptext := "" }) }
      = (ThrottleState.init, [], [])) :=
  ⟨by decide, by decide,
   C6_empty_text ThrottleState.init 3 { text := "   ", result := [] }
     { ptext := "" } (by decide) (by decide)⟩

/-- C7: a recognizer result that fails to parse as JSON is skipped: the
iteration emits nothing, leaves the throttle state untouched, and the loop
goes on to process the rest of the input exactly as if the malformed result
had not been there. -/
theorem C7_malformed (s : ThrottleState) (now : ℚ) (rest : List FrameStep) :
    stepMain s { now := now, out := RecOut.accepted none } = (s, [])
    ∧ stepMain s { now := now, out := RecOut.pending none } = (s, [])
    ∧ stepTemp s { now := now, out := RecOut.accepted none } = (s, [], [])
    ∧ stepTemp s { now := now, out := RecOut.pending none } = (s, [], [])
    ∧ runMain s ({ now := now, out := RecOut.accepted none } :: rest)
      = runMain s rest
    ∧ runMain s ({ now := now, out := RecOut.pending none } :: rest)
      = runMain s rest
    ∧ runTemp s ({ now := now, out := RecOut.accepted none } :: rest)
      = runTemp s rest
    ∧ runTemp s ({ now := now, out := RecOut.pending none } :: rest)
      = runTemp s rest := by
  refine ⟨rfl, rfl, rfl, rfl, ?_, ?_, ?_, ?_⟩ <;> simp [runMain, runTemp, stepMain, stepTemp]

/-- C8 counterexample: the frame queue has no bound.  `q = queue.Queue()`
is created with the default `maxsize=0` (infinite), so for every proposed
capacity there is a sequence of capture-callback puts after which the queue
holds more items than that capacity — and no put ever drops a frame. -/
theorem C8_counterexample :
    ¬ ∃ c : ℕ, ∀ frames : List AudioFrame,
        (PyQueue.putAll (PyQueue.empty : PyQueue AudioFrame) frames).items.length
          ≤ c := by
  rintro ⟨c, h⟩
  have h2 := h (List.replicate (c + 1) ([] : List ℕ))
  rw [putAll_items] at h2
  simp only [PyQueue.empty, List.nil_append, List.length_replicate] at h2
  omega

/-- C8 (amended): the frame queue is an unbounded FIFO.  `put` from the
capture callback always succeeds immediately (never blocks, never drops)
and appends at the tail; `get` blocks the worker only while the queue is
empty and otherwise removes the oldest frame; the arrival order is preserved
exactly, so the recognizer's input is never reordered. -/
theorem C8_queue (qu : PyQueue AudioFrame) (x : AudioFrame)
    (xs : List AudioFrame) :
    (qu.put x).items = qu.items ++ [x]
    ∧ (PyQueue.putAll (PyQueue.empty : PyQueue AudioFrame) xs).items = xs
    ∧ PyQueue.get (PyQueue.empty : PyQueue AudioFrame) = none
    ∧ PyQueue.get (⟨x :: xs⟩ : PyQueue AudioFrame) = some (x, ⟨xs⟩) := by
  refine ⟨rfl, ?_, rfl, rfl⟩
  rw [putAll_items]
  rfl

/-- C9: a Partial suppressed by the throttle — empty stripped text, text
equal to `last_partial`, or arrival before the minimum interval has elapsed
— leaves both `last_partial` and `last_update_ts` unchanged in both workers;
only an actually emitted Live partial updates them. -/
theorem C9_suppressed (s : ThrottleState) (now : ℚ) (p : PartRes)
    (h : ¬(pyStrip p.ptext ≠ "" ∧ pyStrip p.ptext ≠ s.lastPart ∧
           now - s.lastUpdateTs ≥ MIN_INTERVAL)) :
    (stepMain s { now := now, out := RecOut.pending (some p) }).1 = s
    ∧ (stepTemp s { now := now, out := RecOut.pending (some p) }).1 = s := by
  constructor
  · simp only [stepMain]
    rw [if_neg h]
  · simp only [stepTemp]
    rw [if_neg h]

theorem C9_witness :
    ¬(pyStrip "" ≠ "" ∧ pyStrip "" ≠ ThrottleState.init.lastPart ∧
        (0 : ℚ) - ThrottleState.init.lastUpdateTs ≥ MIN_INTERVAL) ∧
    ((stepMain ThrottleState.init
        { now := 0, out := RecOut.pending (some { ptext := "" }) }).1
      = ThrottleState.init
    ∧ (stepTemp ThrottleState.init
        { now := 0, out := RecOut.pending (some { ptext := "" }) }).1
      = ThrottleState.init) :=
  ⟨by decide,
   C9_suppressed ThrottleState.init 0 { ptext := "" } (by decide)⟩

/-- C10: `SpeakerLog.add_segment` with an empty text string is a no-op: no
row or separator is inserted, `_row_count` is unchanged, and the whole
widget state is exactly as before. -/
theorem C10_add_segment_empty (log : SpeakerLog) (nowStr : String) :
    addSegment log nowStr "" = log := rfl
